import Mathlib

/-!
Shallow embedding of the ETF data updater (internal/updater.go and
models/models.go): the field-extraction functions over parsed markup
documents, JSON serialization of the extracted record, the per-item
update pipeline, the bounded-concurrency batch orchestrator, and the
daily scheduler with its retry loop.
-/

namespace Updater

/-- Whether `pat` occurs at the head of `l`. -/
def headMatch : List Char → List Char → Bool
  | [], _ => true
  | _ :: _, [] => false
  | p :: ps, c :: cs => p == c && headMatch ps cs

/-- Whether `pat` occurs anywhere in `l` (`strings.Contains` on the
underlying characters). -/
def hasSub : List Char → List Char → Bool
  | pat, [] => pat.isEmpty
  | pat, l@(_ :: rest) => headMatch pat l || hasSub pat rest

/-- Substring containment, modelling the case-sensitive substring test of
the `:contains(...)` part of the CSS selectors used by the extractor. -/
def containsSub (s pat : String) : Bool :=
  hasSub pat.data s.data

/-- `strings.TrimSpace`: strip leading and trailing whitespace. -/
def goTrimSpace (s : String) : String :=
  ⟨((s.data.dropWhile Char.isWhitespace).reverse.dropWhile Char.isWhitespace).reverse⟩

/-- Marker phrase of `topHoldingsSectionSelector`. -/
def topHoldingsMarker : String := "Top Holdings"

/-- Marker phrase of `sectorFundBreakdownDivSelector`. -/
def sectorFundBreakdownMarker : String := "Fund Sector Breakdown"

/-- Marker phrase of `sectorBreakdownDivSelector`. -/
def sectorBreakdownMarker : String := "Sector Breakdown"

/-- Marker phrase of `sectorIndustryDivSelector`. -/
def sectorIndustryMarker : String := "Fund Industry Allocation"

/-- Marker phrase of `sectorSubIndustryDivSelector`. -/
def sectorSubIndustryMarker : String := "Fund Sub-Industry Allocation"

/-- `semaphoreCapacity = 50`, the concurrency cap of the orchestrator. -/
def semaphoreCapacity : Nat := 50

/-- One `tr` of a data table: the concatenated text of its `td.label`
cells, and the texts of its `td.data` cells in order. -/
structure Row where
  label : String
  data : List String
deriving Repr, DecidableEq

/-- `Find(dataCellSelector).Eq(i).Text()`: the i-th data cell text, or the
empty string when the row has fewer data cells (an empty selection's
text is empty). -/
def Row.dataCell (r : Row) (i : Nat) : String :=
  r.data.getD i ""

/-- A candidate container (a `section` element, or a fund-component `div`)
holding a heading text and the `tr` rows of the tables inside it. -/
structure Sect where
  heading : String
  rows : List Row
deriving Repr, DecidableEq

/-- Result of `json.Unmarshal` applied to the value attribute of the
geographical input element (the unmarshaller itself is the Go standard
library, external to this repository, so its outcome on the attribute
text is carried by the document). -/
structure CountryWeight where
  nameValue : String
  weightValue : String
deriving Repr, DecidableEq

structure GeographicalData where
  attributeArray : List CountryWeight
deriving Repr, DecidableEq

/-- A parsed markup document, restricted to what the extractor inspects:
the text of the ticker element (empty when absent), the text of the
description block (empty when absent), the `section` elements (for the
holdings selector), the fund-component `div` elements (for the four
sector selectors), and the geographical input element when present. -/
structure HtmlDoc where
  ticker : String
  description : String
  sections : List Sect
  fundDivs : List Sect
  geoInput : Option (Except String GeographicalData)
deriving Repr

/-- All `section` elements matched by `topHoldingsSectionSelector`:
those whose heading contains the marker phrase. -/
def findTopHoldingsSections (d : HtmlDoc) : List Sect :=
  d.sections.filter (fun s => containsSub s.heading topHoldingsMarker)

/-- All fund-component `div` elements matched by a sector selector with
the given marker phrase. -/
def findFundDivs (d : HtmlDoc) (marker : String) : List Sect :=
  d.fundDivs.filter (fun s => containsSub s.heading marker)

inductive ExtractErr where
  | errNotFound
  | jsonError
deriving Repr, DecidableEq

/-- `models.Holding`. -/
structure Holding where
  Name : String
  SharesHeld : String
  Weight : String
deriving Repr, DecidableEq

/-- `models.WeightData`. -/
structure WeightData where
  Name : String
  Weight : String
deriving Repr, DecidableEq

/-- Body of the row loop of `findHoldings`, for one indexed row: rows
after the first whose label is non-empty and whose second data cell is
non-empty are appended; fields are taken verbatim. -/
def holdingsStep (acc : List Holding) (p : Nat × Row) : List Holding :=
  if p.1 > 0 && p.2.label != "" then
    if p.2.dataCell 1 != "" then
      acc ++ [{ Name := p.2.label, SharesHeld := p.2.dataCell 0,
                Weight := p.2.dataCell 1 }]
    else acc
  else acc

/-- The row loop of `findHoldings`: iterate over the joined `tr` list with
a running index. -/
def findHoldingsRows (rows : List Row) : List Holding :=
  rows.enum.foldl holdingsStep []

/-- `findHoldings`: locate the top-holdings sections; none present is
`ErrNotFound`; otherwise collect the qualifying rows of all tables in
all matched sections. -/
def findHoldings (d : HtmlDoc) : Except ExtractErr (List Holding) :=
  let div := findTopHoldingsSections d
  if div.length == 0 then .error .errNotFound
  else .ok (findHoldingsRows (div.map Sect.rows).flatten)

/-- The selector order of the `sectorDivs` slice in `findSectors`. -/
def sectorDivsOrder : List String :=
  [sectorBreakdownMarker, sectorIndustryMarker,
   sectorSubIndustryMarker, sectorFundBreakdownMarker]

/-- The selector loop of `findSectors`: try each selector in order and
stop at the first with a non-empty match; when none matches the loop
leaves the last (empty) selection. -/
def firstNonEmptyMatch (d : HtmlDoc) : List String → List Sect
  | [] => []
  | m :: rest =>
    let found := findFundDivs d m
    if found.length != 0 then found else firstNonEmptyMatch d rest

/-- The row loop of `findSectors`: same skipping rule as holdings except
that the second data cell is not inspected; the weight is the first
data cell. -/
def findSectorsRows (rows : List Row) : List WeightData :=
  rows.enum.foldl
    (fun acc p =>
      if p.1 > 0 && p.2.label != "" then
        acc ++ [{ Name := p.2.label, Weight := p.2.dataCell 0 }]
      else acc) []

/-- `findSectors`. -/
def findSectors (d : HtmlDoc) : Except ExtractErr (List WeightData) :=
  let sectorDiv := firstNonEmptyMatch d sectorDivsOrder
  if sectorDiv.length == 0 then .error .errNotFound
  else .ok (findSectorsRows (sectorDiv.map Sect.rows).flatten)

/-- `processGeographicalData`. -/
def processGeographicalData (g : GeographicalData) : List WeightData :=
  g.attributeArray.map (fun c => { Name := c.nameValue, Weight := c.weightValue })

/-- `findCountries`: input element absent is `ErrNotFound`; present with
failing unmarshal is a JSON error; otherwise the processed array. -/
def findCountries (d : HtmlDoc) : Except ExtractErr (List WeightData) :=
  match d.geoInput with
  | none => .error .errNotFound
  | some (.error _) => .error .jsonError
  | some (.ok g) => .ok (processGeographicalData g)

/-- A Go slice built by zero or more appends starting from the zero value
is nil exactly when no element was appended; nil is distinguished from a
non-nil empty slice by the JSON marshaller. -/
def goSlice {α : Type} (l : List α) : Option (List α) :=
  if l.isEmpty then none else some l

/-- `models.ETFData`; the three sequence fields record Go slice nil-ness
(`none` is the nil slice). -/
structure ETFData where
  Name : String
  Description : String
  TopHoldings : Option (List Holding)
  Countries : Option (List WeightData)
  Sectors : Option (List WeightData)
deriving Repr, DecidableEq

/-- JSON string escaping (quote and backslash). -/
def escapeJson (s : String) : String :=
  (s.replace "\\" "\\\\").replace "\"" "\\\""

/-- A JSON string literal. -/
def jstr (s : String) : String := "\"" ++ escapeJson s ++ "\""

/-- A JSON array of the rendered elements. -/
def renderArr {α : Type} (f : α → String) (l : List α) : String :=
  "[" ++ String.intercalate "," (l.map f) ++ "]"

/-- A Go slice rendered by `encoding/json`: nil marshals to `null`, a
non-nil slice to an array. -/
def renderSlice {α : Type} (f : α → String) : Option (List α) → String
  | none => "null"
  | some l => renderArr f l

/-- `models.Holding` rendered with its JSON tags. -/
def renderHolding (h : Holding) : String :=
  "\x7b\"name\":" ++ jstr h.Name ++ ",\"shares_held\":" ++ jstr h.SharesHeld
    ++ ",\"weight\":" ++ jstr h.Weight ++ "\x7d"

/-- `models.WeightData` rendered with its JSON tags. -/
def renderWeightData (w : WeightData) : String :=
  "\x7b\"name\":" ++ jstr w.Name ++ ",\"weight\":" ++ jstr w.Weight ++ "\x7d"

/-- The key/value fields of the marshalled `ETFData`, in struct-field
order.  The `sectors` field carries the `omitempty` option, so it is
omitted when the slice is nil or has length zero; `top_holdings` and
`countries` carry no option and render a nil slice as `null`. -/
def ETFData.toJsonFields (m : ETFData) : List (String × String) :=
  [("name", jstr m.Name), ("description", jstr m.Description),
   ("top_holdings", renderSlice renderHolding m.TopHoldings),
   ("countries", renderSlice renderWeightData m.Countries)]
  ++ (match m.Sectors with
      | none => []
      | some l => if l.isEmpty then [] else [("sectors", renderArr renderWeightData l)])

/-- `ETFData.ToJson`: the serialized payload stored in the record. -/
def ETFData.ToJson (m : ETFData) : String :=
  "\x7b" ++ String.intercalate ","
    (m.toJsonFields.map (fun p => "\"" ++ p.1 ++ "\":" ++ p.2)) ++ "\x7d"

/-- `models.ETF` (the timestamp columns are owned by the storage layer). -/
structure ETF where
  ID : String
  Data : String
deriving Repr, DecidableEq

inductive BuildError where
  | notFoundName
  | notFoundDescription
  | holdingsFailed (e : ExtractErr)
  | sectorsFailed (e : ExtractErr)
  | countriesFailed (e : ExtractErr)
deriving Repr, DecidableEq

/-- Assemble the `ETFData` payload exactly as `buildETF` leaves it:
holdings come from an append-built slice (nil iff empty), sectors from a
slice initialized non-nil, countries as given (nil when geographic data
was tolerated as absent). -/
def mkETFData (name descr : String) (hs : List Holding)
    (secs : List WeightData) (cs : Option (List WeightData)) : ETFData :=
  { Name := name, Description := descr, TopHoldings := goSlice hs,
    Countries := cs, Sectors := some secs }

/-- `buildETF`: name (trimmed) must be non-empty, description must be
non-empty, holdings and sectors extraction errors are fatal, a
countries `ErrNotFound` is tolerated (nil countries), any other
countries error is fatal. -/
def buildETF (d : HtmlDoc) : Except BuildError ETF :=
  let name := goTrimSpace d.ticker
  if name == "" then .error .notFoundName
  else if d.description == "" then .error .notFoundDescription
  else
    match findHoldings d with
    | .error e => .error (.holdingsFailed e)
    | .ok hs =>
      match findSectors d with
      | .error e => .error (.sectorsFailed e)
      | .ok secs =>
        match findCountries d with
        | .error .errNotFound =>
          .ok { ID := name, Data := (mkETFData name d.description hs secs none).ToJson }
        | .error e => .error (.countriesFailed e)
        | .ok cs =>
          .ok { ID := name, Data := (mkETFData name d.description hs secs (some cs)).ToJson }

/-- What happened between `updateETF` and the outside world for one path:
the fetch may fail at the request, body-read, or parse stage; otherwise
the parsed document is available. -/
inductive FetchOutcome where
  | fetchFail
  | readFail
  | parseFail
  | gotDoc (d : HtmlDoc)
deriving Repr

/-- The externally visible result of `updateETF` for one path.  The three
skip constructors and the build-failure constructor are paths on which
the error was logged and the function returned before calling
`store.Upsert`; the two upsert constructors record that `store.Upsert`
was called with the built record. -/
inductive ItemResult where
  | skippedFetch
  | skippedRead
  | skippedParse
  | skippedBuild (e : BuildError)
  | upsertFailed (etf : ETF)
  | upserted (etf : ETF)
deriving Repr, DecidableEq

/-- `updateETF` for one path, given the outcome of its HTTP fetch and the
storage layer's response to an upsert.  Every branch returns a result:
the function propagates nothing to its caller. -/
def updateETF (fetch : FetchOutcome) (storeOk : ETF → Bool) : ItemResult :=
  match fetch with
  | .fetchFail => .skippedFetch
  | .readFail => .skippedRead
  | .parseFail => .skippedParse
  | .gotDoc d =>
    match buildETF d with
    | .error e => .skippedBuild e
    | .ok etf => if storeOk etf then .upserted etf else .upsertFailed etf

/-- `UpdateData`: discovery failure is returned to the caller; otherwise
every discovered path is processed through `updateETF` and the batch
returns nil whatever the per-item results were. -/
def UpdateData (paths : Except String (List String))
    (fetch : String → FetchOutcome) (storeOk : ETF → Bool) :
    Except String (List (String × ItemResult)) :=
  match paths with
  | .error e => .error ("failed to get data paths: " ++ e)
  | .ok ps => .ok (ps.map (fun p => (p, updateETF (fetch p) storeOk)))

/-- Whether an `Except` is a success. -/
def isOkB {ε α : Type} : Except ε α → Bool
  | .ok _ => true
  | .error _ => false

/-- The result recorded for a given path in a batch result. -/
def itemLookup (p : String) : Except String (List (String × ItemResult)) → Option ItemResult
  | .error _ => none
  | .ok l => l.lookup p

/-!
Concurrency model of the batch loop of `UpdateData`: the main goroutine
admits one pipeline at a time (it sends on the semaphore channel, which
blocks while `semaphoreCapacity` slots are held, then spawns the
worker); each worker runs, then releases its slot and signals the wait
group, whether its item succeeded or failed.  `wg.Wait` returns only
when every admitted worker has signalled completion.
-/

/-- A snapshot of the batch: paths the main loop has not yet admitted,
workers holding a semaphore slot and still running, and workers that
have released their slot and signalled the wait group. -/
structure OrchState where
  pending : Nat
  running : Nat
  done : Nat
deriving Repr, DecidableEq

/-- Atomic steps of the batch.  `acquire` is the main loop acquiring a
semaphore slot (possible only while fewer than `semaphoreCapacity`
slots are held) and spawning the worker; `finish` is a worker
completing with outcome `ok` (the released slot and the wait-group
signal do not depend on `ok`: the release is in a deferred block). -/
inductive OrchStep : OrchState → OrchState → Prop where
  | acquire (s : OrchState) :
      0 < s.pending → s.running < semaphoreCapacity →
      OrchStep s ⟨s.pending - 1, s.running + 1, s.done⟩
  | finish (s : OrchState) (ok : Bool) :
      0 < s.running →
      OrchStep s ⟨s.pending, s.running - 1, s.done + 1⟩

/-- The batch over `n` discovered paths starts with everything pending. -/
def initOrch (n : Nat) : OrchState := ⟨n, 0, 0⟩

/-- States the batch can reach from its start. -/
inductive OrchReachable (n : Nat) : OrchState → Prop where
  | init : OrchReachable n (initOrch n)
  | step {s t : OrchState} : OrchReachable n s → OrchStep s t → OrchReachable n t

/-- `wg.Wait` lets `UpdateData` return only when the loop has admitted
every path and every worker has signalled completion. -/
def canReturn (s : OrchState) : Bool :=
  s.pending == 0 && s.running == 0

/-!
Scheduler model (`Run`): the initial update runs immediately; its
failure is fatal for the process (`logger.Fatalf`), so the ticker loop
is never entered.  On each 24-hour tick the update is attempted up to
`retries = 3` times, sleeping one hour between a failed attempt and the
next; a success breaks out of the retry loop; exhausting the retries
merely ends the cycle, and the loop waits for the next tick.
-/

/-- Number of tries per scheduled cycle. -/
def retries : Nat := 3

/-- Observable events of one scheduled cycle. -/
inductive CycleEv where
  | attempt (ok : Bool)
  | sleepOneHour
deriving Repr, DecidableEq

/-- The retry loop `for i := 0; i < retries; i++` of one tick, unrolled
from index `i` with enough fuel; `res i` is whether the i-th call of
`UpdateData` returned nil. -/
def retryGo (res : Nat → Bool) : Nat → Nat → List CycleEv
  | _, 0 => []
  | i, fuel + 1 =>
    if i < retries then
      if res i then [.attempt true]
      else if i < retries - 1 then
        .attempt false :: .sleepOneHour :: retryGo res (i + 1) fuel
      else [.attempt false]
    else []

/-- The events of one scheduled cycle. -/
def runCycleAttempts (res : Nat → Bool) : List CycleEv :=
  retryGo res 0 retries

/-- Number of `UpdateData` calls in a cycle trace. -/
def attemptsMade (evs : List CycleEv) : Nat :=
  evs.countP (fun e => match e with | .attempt _ => true | _ => false)

/-- The ticker loop run for `n` ticks: every tick produces a cycle trace,
regardless of how the previous cycles ended (the loop body never
terminates the process). -/
def runTicks (res : Nat → Nat → Bool) : Nat → List (List CycleEv)
  | 0 => []
  | n + 1 => runTicks res n ++ [runCycleAttempts (res n)]

/-- Whether the process survives startup. -/
inductive ProcessStatus where
  | haltedAtStartup
  | runningSchedule
deriving Repr, DecidableEq

/-- `Run`, observed for `ticks` ticker periods: the initial `UpdateData`
result decides between a fatal halt (no ticker loop) and the recurring
schedule; `res t i` is the result of attempt `i` of tick `t`. -/
def Run (firstResult : Except String Unit) (res : Nat → Nat → Bool)
    (ticks : Nat) : ProcessStatus × List (List CycleEv) :=
  match firstResult with
  | .error _ => (.haltedAtStartup, [])
  | .ok _ => (.runningSchedule, runTicks res ticks)

/-!
Reference formulation of the sector-candidate selection, used to compare
candidate orders: the matches of the first selector that matches at
least one div.
-/

/-- The first selector of `order` with a non-empty match, with its
matches; `none` when every selector matches nothing. -/
def firstMatching (d : HtmlDoc) : List String → Option (List Sect)
  | [] => none
  | m :: rest =>
    let f := findFundDivs d m
    if f.isEmpty then firstMatching d rest else some f

/-- Sector extraction described as taking the first candidate of a given
order: used to state which candidate order `findSectors` follows. -/
def findSectorsInOrder (d : HtmlDoc) (order : List String) :
    Except ExtractErr (List WeightData) :=
  match firstMatching d order with
  | none => .error .errNotFound
  | some divs => .ok (findSectorsRows (divs.map Sect.rows).flatten)

/-- The candidate order as the specification states it: fund sector
breakdown, then sector breakdown, then fund industry allocation, then
fund sub-industry allocation. -/
def sectorDivsSpecOrder : List String :=
  [sectorFundBreakdownMarker, sectorBreakdownMarker,
   sectorIndustryMarker, sectorSubIndustryMarker]

/-!
Concrete documents used as counterexamples and witnesses.
-/

/-- Valid name and description, a sector section, but no section whose
heading contains the holdings marker. -/
def exDocNoHoldings : HtmlDoc :=
  { ticker := "AAA", description := "desc",
    sections := [],
    fundDivs := [⟨"Fund Sector Breakdown",
      [⟨"Sector", ["Weight"]⟩, ⟨"Tech", ["10%"]⟩]⟩],
    geoInput := none }

/-- Valid name, description and holdings section, but no fund-component
div matching any of the four sector selectors. -/
def exDocNoSectors : HtmlDoc :=
  { ticker := "BBB", description := "desc",
    sections := [⟨"Top Holdings",
      [⟨"Name", ["Shares", "Weight"]⟩, ⟨"Apple", ["100", "5%"]⟩]⟩],
    fundDivs := [],
    geoInput := none }

/-- Two fund-component divs: one headed by the fund-sector-breakdown
phrase, one headed by the plain sector-breakdown phrase, with different
rows, so that the candidate order is observable. -/
def exDocTwoSectorDivs : HtmlDoc :=
  { ticker := "CCC", description := "desc",
    sections := [],
    fundDivs :=
      [⟨"Fund Sector Breakdown", [⟨"Sector", ["Weight"]⟩, ⟨"Tech", ["30%"]⟩]⟩,
       ⟨"Sector Breakdown", [⟨"Sector", ["Weight"]⟩, ⟨"Energy", ["20%"]⟩]⟩],
    geoInput := none }

/-- A holdings row whose cells carry surrounding whitespace. -/
def exDocUntrimmed : HtmlDoc :=
  { ticker := "DDD", description := "desc",
    sections := [⟨"Top Holdings",
      [⟨"Name", ["Shares", "Weight"]⟩, ⟨" Apple ", [" 100 ", " 5% "]⟩]⟩],
    fundDivs := [⟨"Sector Breakdown", [⟨"Sector", ["Weight"]⟩, ⟨"Tech", ["30%"]⟩]⟩],
    geoInput := none }

/-- A document whose ticker element text is whitespace only. -/
def exDocBlankTicker : HtmlDoc :=
  { ticker := "  ", description := "desc",
    sections := [], fundDivs := [], geoInput := none }

/-- A payload whose three sequence fields are all nil slices. -/
def exEmptyETFData : ETFData :=
  { Name := "AAA", Description := "desc",
    TopHoldings := none, Countries := none, Sectors := none }

/-!
Theorems.
-/

/-- Claim C1, counterexample: a document with valid name and description
whose holdings section is entirely absent.  Extraction does not succeed
with an empty holdings sequence; it fails, because `buildETF` treats
the `ErrNotFound` of `findHoldings` like any other error. -/
theorem holdingsAbsent_not_ok_cex :
    findTopHoldingsSections exDocNoHoldings = [] ∧
    buildETF exDocNoHoldings = .error (.holdingsFailed .errNotFound) ∧
    isOkB (buildETF exDocNoHoldings) = false :=
  ⟨rfl, rfl, rfl⟩

/-- Claim C1, amended: for every document with a non-empty trimmed ticker
and non-empty description in which the holdings section is absent,
extraction fails with the not-found error (absence is fatal for the
item, not tolerated with an empty sequence). -/
theorem holdingsAbsent_is_fatal (d : HtmlDoc)
    (hn : ¬ goTrimSpace d.ticker = "") (hd : ¬ d.description = "")
    (habs : findTopHoldingsSections d = []) :
    findHoldings d = .error .errNotFound ∧
    buildETF d = .error (.holdingsFailed .errNotFound) := by
  have hfh : findHoldings d = .error .errNotFound := by
    simp [findHoldings, habs]
  refine ⟨hfh, ?_⟩
  simp [buildETF, hn, hd, hfh]

/-- Witness for the amended C1 theorem at a concrete document. -/
theorem holdingsAbsent_is_fatal_witness :
    findHoldings exDocNoHoldings = .error .errNotFound ∧
    buildETF exDocNoHoldings = .error (.holdingsFailed .errNotFound) :=
  holdingsAbsent_is_fatal exDocNoHoldings (by decide) (by decide) rfl

/-- Soundness of the first-candidate description of the selector loop:
the loop result is the first selector's non-empty match set, and a
returned match set is never empty. -/
theorem firstMatching_sound (d : HtmlDoc) :
    ∀ order : List String,
      firstNonEmptyMatch d order = (firstMatching d order).getD [] ∧
      (∀ f, firstMatching d order = some f → f ≠ []) := by
  intro order
  induction order with
  | nil => exact ⟨rfl, fun f h => nomatch h⟩
  | cons m rest ih =>
    refine ⟨?_, ?_⟩
    · cases hfd : findFundDivs d m with
      | nil => simp [firstNonEmptyMatch, firstMatching, hfd, ih.1]
      | cons a t => simp [firstNonEmptyMatch, firstMatching, hfd]
    · intro f hf
      cases hfd : findFundDivs d m with
      | nil =>
        simp only [firstMatching, hfd, List.isEmpty_nil, if_true] at hf
        exact ih.2 f hf
      | cons a t =>
        simp only [firstMatching, hfd, List.isEmpty_cons, if_false] at hf
        rw [← Option.some.inj hf]
        simp

/-- Claim C2, counterexample: a document holding both a fund-sector-
breakdown div and a plain sector-breakdown div.  Under the priority
order the claim states (fund sector breakdown first), only the first
div's rows would be collected; `findSectors` instead starts with the
sector-breakdown selector, whose substring test matches both divs, and
collects the rows of both (including the second div's header row, since
only the globally first row is skipped). -/
theorem sectorOrder_cex :
    findSectors exDocTwoSectorDivs =
      .ok [⟨"Tech", "30%"⟩, ⟨"Sector", "Weight"⟩, ⟨"Energy", "20%"⟩] ∧
    findSectorsInOrder exDocTwoSectorDivs sectorDivsSpecOrder = .ok [⟨"Tech", "30%"⟩] ∧
    findSectors exDocTwoSectorDivs
      ≠ findSectorsInOrder exDocTwoSectorDivs sectorDivsSpecOrder := by
  refine ⟨rfl, rfl, ?_⟩
  intro h
  have h2 : ([⟨"Tech", "30%"⟩, ⟨"Sector", "Weight"⟩, ⟨"Energy", "20%"⟩] : List WeightData)
      = [⟨"Tech", "30%"⟩] := Except.ok.inj h
  simp at h2

/-- Claim C2, amended: `findSectors` tries the candidate selectors in the
order sector breakdown, fund industry allocation, fund sub-industry
allocation, fund sector breakdown, and collects rows from every div
matched by the first selector that matches at least one div. -/
theorem sectorOrder_followed (d : HtmlDoc) :
    findSectors d =
      findSectorsInOrder d
        [sectorBreakdownMarker, sectorIndustryMarker,
         sectorSubIndustryMarker, sectorFundBreakdownMarker] := by
  have h := firstMatching_sound d sectorDivsOrder
  have horder : sectorDivsOrder =
      [sectorBreakdownMarker, sectorIndustryMarker,
       sectorSubIndustryMarker, sectorFundBreakdownMarker] := rfl
  rw [← horder]
  cases hm : firstMatching d sectorDivsOrder with
  | none =>
    have h0 : firstNonEmptyMatch d sectorDivsOrder = [] := by rw [h.1, hm]; rfl
    simp [findSectors, findSectorsInOrder, h0, hm]
  | some f =>
    have hne : f ≠ [] := h.2 f hm
    have h0 : firstNonEmptyMatch d sectorDivsOrder = f := by rw [h.1, hm]; rfl
    cases f with
    | nil => exact absurd rfl hne
    | cons a t => simp [findSectors, findSectorsInOrder, h0, hm]

/-- Claim C3, counterexample: a document with valid name, description and
holdings but no fund-component div at all.  The record does not proceed
with an empty sector sequence; extraction fails, because `buildETF`
treats the `ErrNotFound` of `findSectors` like any other error. -/
theorem sectorsAbsent_not_ok_cex :
    exDocNoSectors.fundDivs = [] ∧
    buildETF exDocNoSectors = .error (.sectorsFailed .errNotFound) ∧
    isOkB (buildETF exDocNoSectors) = false :=
  ⟨rfl, rfl, rfl⟩

/-- Claim C3, amended: for every document with a non-empty trimmed
ticker, non-empty description and a present holdings section, if none
of the four sector candidate selectors matches any div, extraction
fails with the not-found error (absence of all four candidates is fatal
for the item). -/
theorem sectorsAbsent_is_fatal (d : HtmlDoc)
    (hn : ¬ goTrimSpace d.ticker = "") (hd : ¬ d.description = "")
    (hh : ¬ findTopHoldingsSections d = [])
    (habs : ∀ m ∈ sectorDivsOrder, findFundDivs d m = []) :
    findSectors d = .error .errNotFound ∧
    buildETF d = .error (.sectorsFailed .errNotFound) := by
  have h1 := habs sectorBreakdownMarker (by simp [sectorDivsOrder])
  have h2 := habs sectorIndustryMarker (by simp [sectorDivsOrder])
  have h3 := habs sectorSubIndustryMarker (by simp [sectorDivsOrder])
  have h4 := habs sectorFundBreakdownMarker (by simp [sectorDivsOrder])
  have hm : firstNonEmptyMatch d sectorDivsOrder = [] := by
    simp [sectorDivsOrder, firstNonEmptyMatch, h1, h2, h3, h4]
  have hs : findSectors d = .error .errNotFound := by
    simp [findSectors, hm]
  refine ⟨hs, ?_⟩
  have hfh : findHoldings d
      = .ok (findHoldingsRows ((findTopHoldingsSections d).map Sect.rows).flatten) := by
    simp [findHoldings, List.length_eq_zero, hh]
  simp [buildETF, hn, hd, hfh, hs]

/-- Witness for the amended C3 theorem at a concrete document. -/
theorem sectorsAbsent_is_fatal_witness :
    findSectors exDocNoSectors = .error .errNotFound ∧
    buildETF exDocNoSectors = .error (.sectorsFailed .errNotFound) :=
  sectorsAbsent_is_fatal exDocNoSectors (by decide) (by decide) (by decide) (by decide)

/-- Claim C4, counterexample: a holdings row whose cells carry
surrounding whitespace.  The captured fields are the raw cell texts;
they are not trimmed, contrary to the claim's "trimmed raw text". -/
theorem holdingsRows_untrimmed_cex :
    findHoldings exDocUntrimmed = .ok [⟨" Apple ", " 100 ", " 5% "⟩] ∧
    goTrimSpace " Apple " ≠ " Apple " ∧
    goTrimSpace " 100 " ≠ " 100 " ∧
    goTrimSpace " 5% " ≠ " 5% " :=
  ⟨rfl, by decide, by decide, by decide⟩

/-- One step of the holdings row loop, written with the inclusion test as
a single conjunction. -/
theorem holdingsStep_eq (acc : List Holding) (p : Nat × Row) :
    holdingsStep acc p =
      if p.1 > 0 && p.2.label != "" && p.2.dataCell 1 != "" then
        acc ++ [{ Name := p.2.label, SharesHeld := p.2.dataCell 0,
                  Weight := p.2.dataCell 1 }]
      else acc := by
  unfold holdingsStep
  cases h1 : (decide (p.1 > 0) && p.2.label != "") <;>
    cases h2 : (p.2.dataCell 1 != "") <;>
    simp [h1, h2]

/-- The row loop of `findHoldings`, characterized as filter-then-map over
the indexed rows. -/
theorem findHoldingsRows_go (l : List (Nat × Row)) (acc : List Holding) :
    l.foldl holdingsStep acc
    = acc ++ (l.filter
        (fun p => p.1 > 0 && p.2.label != "" && p.2.dataCell 1 != "")).map
        (fun p => { Name := p.2.label, SharesHeld := p.2.dataCell 0,
                    Weight := p.2.dataCell 1 }) := by
  induction l generalizing acc with
  | nil => simp
  | cons x t ih =>
    simp only [List.foldl_cons, List.filter_cons]
    rw [holdingsStep_eq]
    cases hc : (x.1 > 0 && x.2.label != "" && x.2.dataCell 1 != "") with
    | false =>
      rw [if_neg Bool.false_ne_true, if_neg Bool.false_ne_true]
      exact ih acc
    | true =>
      rw [if_pos rfl, if_pos rfl, ih]
      simp

/-- Claim C4, amended: in a holdings table the globally first row is
always excluded; a later row is included exactly when its label and its
second data cell are both non-empty; an included row yields one holding
whose fields are the label text, the first data cell and the second
data cell as raw (untrimmed) cell text. -/
theorem holdingsRows_selection (rows : List Row) :
    findHoldingsRows rows =
      (rows.enum.filter
        (fun p => p.1 > 0 && p.2.label != "" && p.2.dataCell 1 != "")).map
        (fun p => { Name := p.2.label, SharesHeld := p.2.dataCell 0,
                    Weight := p.2.dataCell 1 }) := by
  unfold findHoldingsRows
  simpa using findHoldingsRows_go rows.enum []

/-- Claim C5: in every reachable state of the batch, at most
`semaphoreCapacity` worker pipelines are in flight, the admitted,
running and finished items always account for the whole path set, and
the batch can return only when every item has completed.  The `finish`
step carries the worker's outcome and releases the slot either way. -/
theorem orchestrator_bounded {n : Nat} {s : OrchState}
    (h : OrchReachable n s) :
    s.running ≤ semaphoreCapacity ∧
    s.pending + s.running + s.done = n ∧
    (canReturn s = true → s.done = n) := by
  induction h with
  | init =>
    refine ⟨by simp [initOrch, semaphoreCapacity], by simp [initOrch], ?_⟩
    intro hc
    simp [canReturn, initOrch] at hc
    simp [initOrch, hc]
  | step _ hstep ih =>
    obtain ⟨ihle, ihsum, _⟩ := ih
    cases hstep with
    | acquire hp hcap =>
      refine ⟨?_, ?_, ?_⟩ <;> simp only [canReturn]
      · show _ + 1 ≤ _
        omega
      · show _ - 1 + (_ + 1) + _ = _
        omega
      · intro hc
        simp at hc
    | finish ok hr =>
      refine ⟨?_, ?_, ?_⟩ <;> simp only [canReturn]
      · show _ - 1 ≤ _
        omega
      · show _ + (_ - 1) + (_ + 1) = _
        omega
      · intro hc
        simp at hc
        omega

/-- Witness for C5 at a concrete run: two paths, one admitted and
finished, one still pending. -/
theorem orchestrator_bounded_witness :
    (OrchState.mk 1 0 1).running ≤ semaphoreCapacity ∧
    (OrchState.mk 1 0 1).pending + (OrchState.mk 1 0 1).running
      + (OrchState.mk 1 0 1).done = 2 ∧
    (canReturn (OrchState.mk 1 0 1) = true → (OrchState.mk 1 0 1).done = 2) := by
  have h0 : OrchReachable 2 (initOrch 2) := OrchReachable.init
  have h1 : OrchReachable 2 (OrchState.mk 1 1 0) :=
    OrchReachable.step h0 (OrchStep.acquire (initOrch 2) (by decide) (by decide))
  have h2 : OrchReachable 2 (OrchState.mk 1 0 1) :=
    OrchReachable.step h1 (OrchStep.finish (OrchState.mk 1 1 0) false (by decide))
  exact orchestrator_bounded h2

/-- Looking a key up in a keyed map of itself. -/
theorem lookup_map_self {β : Type} (g : String → β) :
    ∀ (ps : List String) (p : String), p ∈ ps →
      (ps.map (fun q => (q, g q))).lookup p = some (g p) := by
  intro ps
  induction ps with
  | nil => intro p hp; cases hp
  | cons q t ih =>
    intro p hp
    by_cases h : p = q
    · subst h
      simp [List.lookup]
    · have hpt : p ∈ t := by
        cases hp with
        | head => exact absurd rfl h
        | tail _ hm => exact hm
      simp [List.lookup, beq_eq_false_iff_ne.mpr h, ih p hpt]

/-- Claim C6: the batch returns success whatever the per-item outcomes
are; it can fail only when path discovery fails; an item's recorded
outcome is its own pipeline result, and it is unchanged under arbitrary
changes to the fetch and storage behavior of the other items. -/
theorem batch_isolation (ps : List String)
    (fetch1 fetch2 : String → FetchOutcome) (store1 store2 : ETF → Bool)
    (p : String) (hmem : p ∈ ps) (hf : fetch1 p = fetch2 p)
    (hs : ∀ etf, store1 etf = store2 etf) :
    isOkB (UpdateData (.ok ps) fetch1 store1) = true ∧
    (∀ e, isOkB (UpdateData (.error e) fetch1 store1) = false) ∧
    itemLookup p (UpdateData (.ok ps) fetch1 store1)
      = some (updateETF (fetch1 p) store1) ∧
    itemLookup p (UpdateData (.ok ps) fetch1 store1)
      = itemLookup p (UpdateData (.ok ps) fetch2 store2) := by
  have hstore : store1 = store2 := funext hs
  subst hstore
  have hl1 := lookup_map_self (fun q => updateETF (fetch1 q) store1) ps p hmem
  have hl2 := lookup_map_self (fun q => updateETF (fetch2 q) store1) ps p hmem
  refine ⟨rfl, fun _ => rfl, ?_, ?_⟩
  · simpa [UpdateData, itemLookup] using hl1
  · simp only [UpdateData, itemLookup]
    rw [hl1, hl2]
    simp [hf]

/-- Witness for C6 at a concrete batch of two paths. -/
theorem batch_isolation_witness :
    isOkB (UpdateData (.ok ["a", "b"]) (fun _ => .fetchFail) (fun _ => true)) = true ∧
    (∀ e, isOkB (UpdateData (.error e) (fun _ => .fetchFail) (fun _ => true)) = false) ∧
    itemLookup "a" (UpdateData (.ok ["a", "b"]) (fun _ => .fetchFail) (fun _ => true))
      = some (updateETF ((fun _ => FetchOutcome.fetchFail) "a") (fun _ => true)) ∧
    itemLookup "a" (UpdateData (.ok ["a", "b"]) (fun _ => .fetchFail) (fun _ => true))
      = itemLookup "a" (UpdateData (.ok ["a", "b"]) (fun _ => .fetchFail) (fun _ => true)) :=
  batch_isolation ["a", "b"] (fun _ => .fetchFail) (fun _ => .fetchFail)
    (fun _ => true) (fun _ => true) "a" (by simp) rfl (fun _ => rfl)

/-- Every tick of the scheduling loop yields exactly one cycle trace. -/
theorem runTicks_length (res : Nat → Nat → Bool) :
    ∀ n, (runTicks res n).length = n := by
  intro n
  induction n with
  | zero => rfl
  | succ k ih => simp [runTicks, ih]

/-- Claim C7: a scheduled cycle makes at most `retries = 3` attempts,
sleeps one hour between consecutive attempts, stops at the first
success, and after three failures simply ends; the ticker loop then
still produces every later tick (the process does not crash). -/
theorem scheduler_retry_policy (res : Nat → Bool)
    (sched : Nat → Nat → Bool) (n : Nat) :
    runCycleAttempts res =
      (if res 0 then [.attempt true]
       else if res 1 then [.attempt false, .sleepOneHour, .attempt true]
       else if res 2 then
         [.attempt false, .sleepOneHour, .attempt false, .sleepOneHour, .attempt true]
       else
         [.attempt false, .sleepOneHour, .attempt false, .sleepOneHour, .attempt false]) ∧
    attemptsMade (runCycleAttempts res) ≤ retries ∧
    (runTicks sched n).length = n := by
  have hc : runCycleAttempts res =
      (if res 0 then [CycleEv.attempt true]
       else if res 1 then [.attempt false, .sleepOneHour, .attempt true]
       else if res 2 then
         [.attempt false, .sleepOneHour, .attempt false, .sleepOneHour, .attempt true]
       else
         [.attempt false, .sleepOneHour, .attempt false, .sleepOneHour, .attempt false]) := by
    by_cases h0 : res 0 <;> by_cases h1 : res 1 <;> by_cases h2 : res 2 <;>
      simp [runCycleAttempts, retryGo, retries, h0, h1, h2]
  refine ⟨hc, ?_, runTicks_length sched n⟩
  rw [hc]
  by_cases h0 : res 0 <;> by_cases h1 : res 1 <;> by_cases h2 : res 2 <;>
    simp [attemptsMade, h0, h1, h2, retries]

/-- Claim C8: a failing initial update halts the process before the
ticker loop starts (no scheduled cycle ever runs); a successful initial
update enters the recurring schedule, which then produces one cycle per
tick. -/
theorem startup_failure_halts (e : String) (res : Nat → Nat → Bool) (n : Nat) :
    Run (.error e) res n = (.haltedAtStartup, []) ∧
    (Run (.ok ()) res n).1 = .runningSchedule ∧
    (Run (.ok ()) res n).2.length = n :=
  ⟨rfl, rfl, runTicks_length res n⟩

/-- Claim C9: when the trimmed ticker text is empty, extraction fails
with the missing-name error, the item is skipped at the build stage,
and no upsert call is made for it. -/
theorem missingIdentity_no_upsert (d : HtmlDoc) (storeOk : ETF → Bool)
    (h : goTrimSpace d.ticker = "") :
    buildETF d = .error .notFoundName ∧
    updateETF (.gotDoc d) storeOk = .skippedBuild .notFoundName ∧
    ∀ etf, updateETF (.gotDoc d) storeOk ≠ .upserted etf ∧
           updateETF (.gotDoc d) storeOk ≠ .upsertFailed etf := by
  have hb : buildETF d = .error .notFoundName := by
    simp [buildETF, h]
  have hu : updateETF (.gotDoc d) storeOk = .skippedBuild .notFoundName := by
    simp [updateETF, hb]
  exact ⟨hb, hu, fun etf => ⟨by simp [hu], by simp [hu]⟩⟩

/-- Witness for C9 at a document whose ticker text is whitespace only. -/
theorem missingIdentity_no_upsert_witness :
    buildETF exDocBlankTicker = .error .notFoundName ∧
    updateETF (.gotDoc exDocBlankTicker) (fun _ => true) = .skippedBuild .notFoundName ∧
    ∀ etf, updateETF (.gotDoc exDocBlankTicker) (fun _ => true) ≠ .upserted etf ∧
           updateETF (.gotDoc exDocBlankTicker) (fun _ => true) ≠ .upsertFailed etf :=
  missingIdentity_no_upsert exDocBlankTicker (fun _ => true) (by decide)

/-- Claim C10: serialization is asymmetric across the three optional
sequences.  With an empty or nil sector slice the `sectors` key is
omitted from the payload, while nil holdings and countries slices are
serialized as `null` under their keys; a non-empty sector slice does
get a `sectors` key. -/
theorem serialization_asymmetry (m : ETFData)
    (hsec : m.Sectors = none ∨ m.Sectors = some [])
    (hhold : m.TopHoldings = none) (hcty : m.Countries = none) :
    m.toJsonFields.map Prod.fst = ["name", "description", "top_holdings", "countries"] ∧
    m.toJsonFields.lookup "top_holdings" = some "null" ∧
    m.toJsonFields.lookup "countries" = some "null" ∧
    (∀ l, l ≠ [] →
      (ETFData.toJsonFields { m with Sectors := some l }).map Prod.fst
        = ["name", "description", "top_holdings", "countries", "sectors"]) := by
  have hfields : m.toJsonFields =
      [("name", jstr m.Name), ("description", jstr m.Description),
       ("top_holdings", "null"), ("countries", "null")] := by
    rcases hsec with h | h <;>
      simp [ETFData.toJsonFields, h, hhold, hcty, renderSlice]
  refine ⟨?_, ?_, ?_, ?_⟩
  · rw [hfields]; rfl
  · rw [hfields]; rfl
  · rw [hfields]; rfl
  · intro l hl
    have hne : l.isEmpty = false := by
      cases l with
      | nil => exact absurd rfl hl
      | cons a t => rfl
    simp [ETFData.toJsonFields, hhold, hcty, hne, renderSlice]

/-- Witness for C10 at a payload with all three sequences nil. -/
theorem serialization_asymmetry_witness :
    exEmptyETFData.toJsonFields.map Prod.fst
      = ["name", "description", "top_holdings", "countries"] ∧
    exEmptyETFData.toJsonFields.lookup "top_holdings" = some "null" ∧
    exEmptyETFData.toJsonFields.lookup "countries" = some "null" ∧
    (∀ l, l ≠ [] →
      (ETFData.toJsonFields { exEmptyETFData with Sectors := some l }).map Prod.fst
        = ["name", "description", "top_holdings", "countries", "sectors"]) :=
  serialization_asymmetry exEmptyETFData (Or.inl rfl) rfl rfl

end Updater
